import Mathlib

/-!
Shallow embedding of the task-manager page (task list state and operations)
and of the chat relay route of the todoadvance repository, with theorems
checking the claims of the specification about them.

Machine integers (`Date.now()` timestamps, ids) are modelled as `Nat`;
`Date.now()` itself is passed in as an explicit `now` parameter.  Optional
fields (`description?`, `dueDate?`, `category?`, `completedAt?`) are `Option`.
JavaScript `Set<number>` is modelled as `Finset Nat`.
-/

namespace TodoApp

/-- Model of JavaScript `String.prototype.includes` on character lists:
`startsWithChars pat l` holds when `pat` is an initial segment of `l`. -/
def startsWithChars : List Char → List Char → Bool
  | [], _ => true
  | _ :: _, [] => false
  | p :: ps, c :: cs => p == c && startsWithChars ps cs

/-- `hasSubChars pat l` : `pat` occurs contiguously somewhere in `l`. -/
def hasSubChars (pat : List Char) : List Char → Bool
  | [] => startsWithChars pat []
  | c :: cs => startsWithChars pat (c :: cs) || hasSubChars pat cs

/-- Model of JavaScript `s.includes(pat)`. -/
def strIncludes (s pat : String) : Bool :=
  hasSubChars pat.data s.data

/-- `status: "Pending" | "Completed"` from the `Task` interface. -/
inductive Status
  | Pending
  | Completed
deriving DecidableEq, Repr

/-- `priority: "Low" | "Medium" | "High" | "Urgent"` from the `Task` interface. -/
inductive Priority
  | Low
  | Medium
  | High
  | Urgent
deriving DecidableEq, Repr

/-- The `Subtask` interface. -/
structure Subtask where
  id : Nat
  title : String
  completed : Bool
deriving DecidableEq, Repr

/-- The `Task` interface.  `dueDate` is modelled by the timestamp
`new Date(dueDate).getTime()` that the code compares with. -/
structure Task where
  id : Nat
  title : String
  description : Option String := none
  status : Status
  priority : Priority
  dueDate : Option Nat := none
  category : Option String := none
  subtasks : List Subtask := []
  createdAt : Nat
  completedAt : Option Nat := none
deriving DecidableEq, Repr

/-- `type FilterType = "All" | "Pending" | "Completed"`. -/
inductive FilterType
  | All
  | Pending
  | Completed
deriving DecidableEq, Repr

/-- The seed list returned by `loadTasks` when storage holds nothing
(both seed tasks get `createdAt = Date.now()`; neither sets `completedAt`). -/
def seedTasks (now : Nat) : List Task :=
  [ { id := 1, title := "Study DSA", status := .Pending, priority := .Medium,
      createdAt := now },
    { id := 2, title := "Build To-Do App", status := .Completed, priority := .High,
      createdAt := now } ]

/-- The invariant claimed in the data-model section:
`completedAt` is present iff `status = Completed`. -/
def completedAtInv (t : Task) : Prop :=
  t.completedAt.isSome ↔ t.status = .Completed

instance (t : Task) : Decidable (completedAtInv t) := by
  unfold completedAtInv; infer_instance

/-- A `Partial<Task>` payload: each field optionally overridden by spread. -/
structure TaskPatch where
  id : Option Nat := none
  title : Option String := none
  description : Option (Option String) := none
  status : Option Status := none
  priority : Option Priority := none
  dueDate : Option (Option Nat) := none
  category : Option (Option String) := none
  subtasks : Option (List Subtask) := none
  createdAt : Option Nat := none
  completedAt : Option (Option Nat) := none
deriving DecidableEq, Repr

/-- The spread `{ ...task, ...updates }`. -/
def applyPatch (t : Task) (p : TaskPatch) : Task :=
  { id := p.id.getD t.id,
    title := p.title.getD t.title,
    description := p.description.getD t.description,
    status := p.status.getD t.status,
    priority := p.priority.getD t.priority,
    dueDate := p.dueDate.getD t.dueDate,
    category := p.category.getD t.category,
    subtasks := p.subtasks.getD t.subtasks,
    createdAt := p.createdAt.getD t.createdAt,
    completedAt := p.completedAt.getD t.completedAt }

/-- `handleUpdateTask(id, updates)` on the task list. -/
def handleUpdateTask (id : Nat) (updates : TaskPatch) (tasks : List Task) : List Task :=
  tasks.map fun task => if task.id = id then applyPatch task updates else task

/-- `toggleTaskStatus(id)`; `now` models `Date.now()`. -/
def toggleTaskStatus (now : Nat) (id : Nat) (tasks : List Task) : List Task :=
  tasks.map fun task =>
    if task.id = id then
      { task with
        status := if task.status = .Pending then .Completed else .Pending,
        completedAt := if task.status = .Pending then some now else none }
    else task

/-- `addSubtask(taskId, subtaskTitle)`; `now` models `Date.now()` used as the
new subtask id.  No-op when the title trims to empty. -/
def addSubtask (now : Nat) (taskId : Nat) (subtaskTitle : String)
    (tasks : List Task) : List Task :=
  if subtaskTitle.trim = "" then tasks
  else
    tasks.map fun task =>
      if task.id = taskId then
        { task with subtasks :=
            task.subtasks ++ [{ id := now, title := subtaskTitle.trim, completed := false }] }
      else task

/-- `toggleSubtask(taskId, subtaskId)`. -/
def toggleSubtask (taskId subtaskId : Nat) (tasks : List Task) : List Task :=
  tasks.map fun task =>
    if task.id = taskId then
      { task with subtasks :=
          task.subtasks.map fun st =>
            if st.id = subtaskId then { st with completed := !st.completed } else st }
    else task

/-- `deleteSubtask(taskId, subtaskId)`. -/
def deleteSubtask (taskId subtaskId : Nat) (tasks : List Task) : List Task :=
  tasks.map fun task =>
    if task.id = taskId then
      { task with subtasks := task.subtasks.filter fun st => st.id ≠ subtaskId }
    else task

/-- The pieces of component state that the bulk operations read and write:
the task list and the selected-id set. -/
structure TodoState where
  tasks : List Task
  selectedTasks : Finset Nat
deriving DecidableEq

/-- `bulkComplete()`: selected `Pending` tasks become `Completed` with
`completedAt = Date.now()`; selection is cleared. -/
def bulkComplete (now : Nat) (s : TodoState) : TodoState :=
  { tasks := s.tasks.map fun task =>
      if task.id ∈ s.selectedTasks ∧ task.status = .Pending then
        { task with status := .Completed, completedAt := some now }
      else task,
    selectedTasks := ∅ }

/-- `bulkUpdatePriority(priority)`. -/
def bulkUpdatePriority (priority : Priority) (s : TodoState) : TodoState :=
  { tasks := s.tasks.map fun task =>
      if task.id ∈ s.selectedTasks then { task with priority := priority } else task,
    selectedTasks := ∅ }

/-- Lowercasing (JS `toLowerCase`), on the character list of a string. -/
def lowerChars (l : List Char) : List Char :=
  l.map Char.toLower

/-- Case-insensitive search match from `filteredAndSortedTasks`:
`title.toLowerCase().includes(query) || description?.toLowerCase().includes(query)
 || category?.toLowerCase().includes(query)` with `query = searchQuery.toLowerCase()`. -/
def matchesQuery (searchQuery : String) (t : Task) : Bool :=
  let query := lowerChars searchQuery.data
  hasSubChars query (lowerChars t.title.data) ||
    (match t.description with
     | some d => hasSubChars query (lowerChars d.data)
     | none => false) ||
    (match t.category with
     | some c => hasSubChars query (lowerChars c.data)
     | none => false)

/-- The `.filter` callback of `filteredAndSortedTasks`, verbatim branch order:
status-filter mismatches return `false` first; then, when `searchQuery` is
truthy (non-empty), the search match is returned; else `true`. -/
def taskFilterPred (filter : FilterType) (searchQuery : String) (t : Task) : Bool :=
  if filter = .Pending ∧ t.status ≠ .Pending then false
  else if filter = .Completed ∧ t.status ≠ .Completed then false
  else if searchQuery ≠ "" then matchesQuery searchQuery t
  else true

/-- The status-filter test on its own (the first two branches of the
`.filter` callback, with `true` otherwise). -/
def statusPass (filter : FilterType) (t : Task) : Bool :=
  if filter = .Pending ∧ t.status ≠ .Pending then false
  else if filter = .Completed ∧ t.status ≠ .Completed then false
  else true

/-- The `dueDate` branch of the sort comparator:
no date / no date → 0; `a` dateless → 1; `b` dateless → -1; else time difference. -/
def dueDateCmp (a b : Task) : Int :=
  match a.dueDate, b.dueDate with
  | none, none => 0
  | none, some _ => 1
  | some _, none => -1
  | some x, some y => (x : Int) - (y : Int)

/-- The ordering the comparator induces: `a` may come before `b`. -/
def dueDateLe (a b : Task) : Prop := dueDateCmp a b ≤ 0

instance : DecidableRel dueDateLe := fun a b =>
  inferInstanceAs (Decidable (dueDateCmp a b ≤ 0))

/-- `.sort` with the `dueDate` comparator, modelled as a stable sort by the
induced ordering. -/
def sortByDueDate (l : List Task) : List Task :=
  l.insertionSort dueDateLe

/-- The `onDrop` handler, its list update: indices of dragged and drop target
are looked up on the current list, the dragged task is spliced out, then
spliced back in at the (pre-splice) target index.  Guarded by
`draggedId !== task.id`.  (JS `findIndex` returns -1 when absent; the `none`
branch covers lookups outside the list, which the hypotheses below exclude.) -/
def reorder (draggedId targetId : Nat) (tasks : List Task) : List Task :=
  if draggedId = targetId then tasks
  else
    let draggedIndex := tasks.findIdx fun t => t.id == draggedId
    let dropIndex := tasks.findIdx fun t => t.id == targetId
    match tasks[draggedIndex]? with
    | none => tasks
    | some dragged => (tasks.eraseIdx draggedIndex).insertIdx dropIndex dragged

/-- Outcome of `JSON.parse` on the uploaded file, as `importTasks` inspects it:
parse threw, parsed to a top-level array (whose elements are installed as the
task list, unvalidated), or parsed to any non-array value. -/
inductive ParseResult
  | failure
  | arr (imported : List Task)
  | nonArray
deriving DecidableEq

/-- The `alert` shown by `importTasks`. -/
inductive ImportMsg
  | successAlert (count : Nat)
  | errorAlert (msg : String)
deriving DecidableEq

/-- `importTasks`: a top-level array replaces the list wholesale and reports
the count; any other parse outcome leaves the list as is and alerts an error. -/
def importTasks : ParseResult → List Task → List Task × ImportMsg
  | .arr imported, _ => (imported, .successAlert imported.length)
  | .nonArray, current => (current, .errorAlert "Invalid file format")
  | .failure, current => (current, .errorAlert "Error importing file")

end TodoApp

namespace ChatRoute

/-- An entry of the incoming `chatHistory` field of the request body. -/
structure ChatMsg where
  role : String
  content : String
deriving DecidableEq, Repr

/-- An entry of the history forwarded to the upstream model
(`{ role, parts: [{ text }] }`). -/
structure GeminiMsg where
  role : String
  text : String
deriving DecidableEq, Repr

/-- The system prompt constant `SYSTEM_PROMPT` of the route. -/
def SYSTEM_PROMPT : String :=
  "You are a helpful AI assistant integrated into a task management application. \nYou can help users with:\n1. General questions and conversation\n2. Task management advice (creating, organizing, prioritizing tasks)\n3. Productivity tips and suggestions\n4. Answering questions about how to use the task manager\n\nBe friendly, concise, and helpful. When users ask about tasks, provide practical, actionable advice.\nKeep responses clear and to the point."

/-- The `.filter` step: drop entries that repeat the current user message. -/
def filterHistory (message : String) (chatHistory : List ChatMsg) : List ChatMsg :=
  chatHistory.filter fun msg => !(msg.role == "user" && msg.content == message)

/-- Role mapping of the `.map` step (`"user"` stays, everything else → `"model"`). -/
def toGemini (msg : ChatMsg) : GeminiMsg :=
  { role := if msg.role == "user" then "user" else "model", text := msg.content }

/-- `history`: filter, then `slice(-10)` (the last ten entries), then map. -/
def buildHistory (message : String) (chatHistory : List ChatMsg) : List GeminiMsg :=
  (((filterHistory message chatHistory).drop
      ((filterHistory message chatHistory).length - 10)).map toGemini)

/-- `messageToSend`: the system prompt is prepended when `history` is empty. -/
def messageToSend (message : String) (chatHistory : List ChatMsg) : String :=
  if (buildHistory message chatHistory).length = 0 then
    SYSTEM_PROMPT ++ "\n\nUser: " ++ message
  else message

/-- The fixed ordered candidate list `modelNames`. -/
def modelNames : List String :=
  ["gemini-1.5-flash", "gemini-pro", "gemini-1.0-pro", "gemini-1.5-pro"]

/-- The "model not found" error class: message contains "not found" or "404". -/
def isNotFoundErr (msg : String) : Bool :=
  TodoApp.strIncludes msg "not found" || TodoApp.strIncludes msg "404"

/-- What one upstream attempt (`getGenerativeModel` + `sendMessage` +
`response.text()`) yields: a reply text, or a thrown error message. -/
inductive CallResult
  | ok (text : String)
  | err (msg : String)
deriving DecidableEq

/-- How the `for (const modelName of modelNames)` loop ends. -/
inductive LoopOutcome
  | success (text : String) (lastErr : Option String)
  | fatal (msg : String)
  | exhausted (lastErr : Option String)
deriving DecidableEq

/-- The model-fallback loop: break on the first reply; on a "model not found"
error record it in `lastError` and continue; rethrow any other error. -/
def tryModels (call : String → CallResult) :
    List String → Option String → LoopOutcome
  | [], lastErr => .exhausted lastErr
  | m :: rest, lastErr =>
    match call m with
    | .ok t => .success t lastErr
    | .err msg =>
      if isNotFoundErr msg then tryModels call rest (some msg) else .fatal msg

/-- The code after the loop: a falsy (empty) `text` throws
`lastError || new Error("No available models found")`; otherwise the reply is
returned (the route wraps `.ok` as `{ message: text, success: true }`). -/
def finishLoop : LoopOutcome → Except String String
  | .success t lastErr =>
    if t = "" then .error (lastErr.getD "No available models found") else .ok t
  | .fatal msg => .error msg
  | .exhausted lastErr => .error (lastErr.getD "No available models found")

end ChatRoute

namespace TodoApp

/-- Reorder as the specification words it (for comparison with `reorder`):
remove the dragged task from its position, then reinsert it immediately
before the position of the target task in the remainder. -/
def reorderSpecWording (draggedId targetId : Nat) (tasks : List Task) : List Task :=
  if draggedId = targetId then tasks
  else
    match tasks.find? (fun t => t.id == draggedId) with
    | none => tasks
    | some dragged =>
      let rest := tasks.eraseIdx (tasks.findIdx fun t => t.id == draggedId)
      rest.insertIdx (rest.findIdx fun t => t.id == targetId) dragged

instance : IsTotal Task dueDateLe := by
  constructor
  intro a b
  unfold dueDateLe dueDateCmp
  rcases a.dueDate with _ | x <;> rcases b.dueDate with _ | y <;> simp
  omega

instance : IsTrans Task dueDateLe := by
  constructor
  intro a b c hab hbc
  unfold dueDateLe dueDateCmp at *
  rcases ha : a.dueDate with _ | x <;> rcases hb : b.dueDate with _ | y <;>
    rcases hc : c.dueDate with _ | z <;> simp_all
  omega

/-- A pending example task. -/
def exPending : Task :=
  { id := 1, title := "write report", status := .Pending, priority := .Medium,
    createdAt := 10 }

/-- A completed example task whose `completedAt` is 7. -/
def exCompleted7 : Task :=
  { id := 2, title := "email team", status := .Completed, priority := .High,
    createdAt := 10, completedAt := some 7 }

/-- A completed task whose title matches the search query "milk". -/
def exSearchHit : Task :=
  { id := 9, title := "buy milk", status := .Completed, priority := .Low,
    createdAt := 3, completedAt := some 4 }

/-- A task shape an unvalidated import can install: `Pending` yet carrying a
`completedAt` value. -/
def exBadImport : Task :=
  { id := 5, title := "ghost", status := .Pending, priority := .Low,
    createdAt := 1, completedAt := some 5 }

/-- Three distinct example tasks for the drag-and-drop claims. -/
def dA : Task := { id := 1, title := "a", status := .Pending, priority := .Low, createdAt := 0 }

/-- Second drag-and-drop example task. -/
def dB : Task := { id := 2, title := "b", status := .Pending, priority := .Low, createdAt := 0 }

/-- Third drag-and-drop example task. -/
def dC : Task := { id := 3, title := "c", status := .Pending, priority := .Low, createdAt := 0 }

/-- A `Partial<Task>` payload that overrides the `id` field. -/
def patchSetId : TaskPatch := { id := some 42 }

/-- The empty `Partial<Task>` payload. -/
def emptyPatch : TaskPatch := {}

end TodoApp

namespace ChatRoute

/-- An eleven-entry chat history whose newest entry repeats the current user
message "hi". -/
def hist11 : List ChatMsg :=
  [⟨"user", "m01"⟩, ⟨"user", "m02"⟩, ⟨"user", "m03"⟩, ⟨"user", "m04"⟩,
   ⟨"user", "m05"⟩, ⟨"user", "m06"⟩, ⟨"user", "m07"⟩, ⟨"user", "m08"⟩,
   ⟨"user", "m09"⟩, ⟨"user", "m10"⟩, ⟨"user", "hi"⟩]

/-- An upstream that always fails with an error outside the not-found class. -/
def callAllFatal : String → CallResult := fun _ => .err "quota exceeded"

/-- An upstream that succeeds immediately but with an empty reply text. -/
def callEmptyReply : String → CallResult := fun _ => .ok ""

end ChatRoute

namespace TodoApp

/-- C4: import replaces the list wholesale exactly on a top-level array and
otherwise surfaces an error and leaves the list unchanged. -/
theorem importTasks_replaces_iff_array :
    (∀ imported current, importTasks (.arr imported) current =
      (imported, .successAlert imported.length)) ∧
    (∀ current, importTasks .nonArray current =
      (current, .errorAlert "Invalid file format")) ∧
    (∀ current, importTasks .failure current =
      (current, .errorAlert "Error importing file")) :=
  ⟨fun _ _ => rfl, fun _ => rfl, fun _ => rfl⟩

/-- C6: bulkComplete frame conditions. -/
theorem bulkComplete_spec (now : Nat) (s : TodoState) :
    (bulkComplete now s).selectedTasks = ∅ ∧
    ∃ f : Task → Task, (bulkComplete now s).tasks = s.tasks.map f ∧
      ∀ task : Task,
        (task.id ∉ s.selectedTasks → f task = task) ∧
        (task.status = .Completed → f task = task) ∧
        (task.id ∈ s.selectedTasks → task.status = .Pending →
          f task = { task with status := .Completed, completedAt := some now }) := by
  refine ⟨rfl, _, rfl, fun task => ⟨fun h => ?_, fun h => ?_, fun h1 h2 => ?_⟩⟩
  · simp [h]
  · simp [h]
  · simp [h1, h2]

/-- C5: double toggle restores the task list. -/
theorem toggleTaskStatus_twice (now id : Nat) (tasks : List Task)
    (h : ∀ t ∈ tasks, t.id = id →
      (t.status = .Pending → t.completedAt = none) ∧
      (t.status = .Completed → t.completedAt = some now)) :
    toggleTaskStatus now id (toggleTaskStatus now id tasks) = tasks := by
  unfold toggleTaskStatus
  rw [List.map_map]
  conv_rhs => rw [← List.map_id tasks]
  apply List.map_congr_left
  intro t ht
  by_cases hid : t.id = id
  · obtain ⟨tid, ttl, td, tst, tp, tdd, tc, tsub, tca, tcomp⟩ := t
    have h1 := (h _ ht hid).1
    have h2 := (h _ ht hid).2
    simp only at hid h1 h2
    cases tst
    · simp_all [hid]
    · simp_all [hid]
  · simp [hid]

/-- C5 witness. -/
theorem toggleTaskStatus_twice_witness :
    toggleTaskStatus 7 2 (toggleTaskStatus 7 2 [exPending, exCompleted7]) =
      [exPending, exCompleted7] :=
  toggleTaskStatus_twice 7 2 [exPending, exCompleted7] (by decide)

end TodoApp

namespace TodoApp

/-- C10 counterexample: an update payload that sets `id` changes the id order. -/
theorem update_with_id_patch_changes_ids :
    (handleUpdateTask 1 patchSetId [dA]).map Task.id = [42] ∧
    [dA].map Task.id = [1] ∧ (42 : Nat) ≠ 1 := by decide

/-- C10 amended: every listed per-task mutation preserves length and id order,
except that update only preserves the id order when the payload leaves `id` unset
(length is preserved by update unconditionally). -/
theorem mutations_preserve_id_order :
    (∀ i p tasks, (handleUpdateTask i p tasks).length = tasks.length) ∧
    (∀ i p tasks, p.id = none →
      (handleUpdateTask i p tasks).map Task.id = tasks.map Task.id) ∧
    (∀ now i tasks, (toggleTaskStatus now i tasks).map Task.id = tasks.map Task.id) ∧
    (∀ now tid ttl tasks, (addSubtask now tid ttl tasks).map Task.id = tasks.map Task.id) ∧
    (∀ tid sid tasks, (toggleSubtask tid sid tasks).map Task.id = tasks.map Task.id) ∧
    (∀ tid sid tasks, (deleteSubtask tid sid tasks).map Task.id = tasks.map Task.id) ∧
    (∀ now s, ((bulkComplete now s).tasks).map Task.id = s.tasks.map Task.id) ∧
    (∀ p s, ((bulkUpdatePriority p s).tasks).map Task.id = s.tasks.map Task.id) := by
  refine ⟨?_, ?_, ?_, ?_, ?_, ?_, ?_, ?_⟩
  · intro i p tasks; simp [handleUpdateTask]
  · intro i p tasks hp
    unfold handleUpdateTask
    rw [List.map_map]
    apply List.map_congr_left
    intro t _
    by_cases hid : t.id = i <;> simp [applyPatch, hid, hp]
  · intro now i tasks
    unfold toggleTaskStatus
    rw [List.map_map]
    apply List.map_congr_left
    intro t _
    by_cases hid : t.id = i <;> simp [hid]
  · intro now tid ttl tasks
    unfold addSubtask
    split
    · rfl
    · rw [List.map_map]
      apply List.map_congr_left
      intro t _
      by_cases hid : t.id = tid <;> simp [hid]
  · intro tid sid tasks
    unfold toggleSubtask
    rw [List.map_map]
    apply List.map_congr_left
    intro t _
    by_cases hid : t.id = tid <;> simp [hid]
  · intro tid sid tasks
    unfold deleteSubtask
    rw [List.map_map]
    apply List.map_congr_left
    intro t _
    by_cases hid : t.id = tid <;> simp [hid]
  · intro now s
    unfold bulkComplete
    rw [List.map_map]
    apply List.map_congr_left
    intro t _
    by_cases hsel : t.id ∈ s.selectedTasks ∧ t.status = .Pending <;> simp [hsel]
  · intro p s
    unfold bulkUpdatePriority
    rw [List.map_map]
    apply List.map_congr_left
    intro t _
    by_cases hsel : t.id ∈ s.selectedTasks <;> simp [hsel]

/-- C10 witness. -/
theorem mutations_preserve_id_order_witness :
    (handleUpdateTask 1 emptyPatch [dA, dB]).map Task.id = [dA, dB].map Task.id :=
  mutations_preserve_id_order.2.1 1 emptyPatch [dA, dB] rfl

/-- C1 counterexample: the seed list and an imported array both violate the
completedAt-iff-Completed invariant. -/
theorem seed_and_import_violate_inv :
    (¬ ∀ t ∈ seedTasks 0, completedAtInv t) ∧
    (¬ ∀ t ∈ (importTasks (.arr [exBadImport]) []).1, completedAtInv t) := by
  constructor
  · intro hall
    exact absurd (hall ((seedTasks 0).get ⟨1, by decide⟩) (by decide)) (by decide)
  · intro hall
    exact absurd (hall exBadImport (by decide)) (by decide)

/-- C1 amended: the status-transition operations (single toggle, bulk
complete) preserve the invariant, which neither the seed list nor an
unvalidated import need satisfy. -/
theorem toggle_bulkComplete_preserve_inv (now i : Nat) (tasks : List Task)
    (s : TodoState)
    (h : ∀ t ∈ tasks, completedAtInv t) (hs : ∀ t ∈ s.tasks, completedAtInv t) :
    (∀ t ∈ toggleTaskStatus now i tasks, completedAtInv t) ∧
    (∀ t ∈ (bulkComplete now s).tasks, completedAtInv t) := by
  constructor
  · intro t ht
    rw [toggleTaskStatus, List.mem_map] at ht
    obtain ⟨u, hu, rfl⟩ := ht
    by_cases hid : u.id = i
    · have := h u hu
      unfold completedAtInv at *
      cases hst : u.status <;> simp_all [hid]
    · simp only [hid, if_false]
      exact h u hu
  · intro t ht
    rw [bulkComplete, List.mem_map] at ht
    obtain ⟨u, hu, rfl⟩ := ht
    by_cases hsel : u.id ∈ s.selectedTasks ∧ u.status = .Pending
    · unfold completedAtInv
      simp [hsel]
    · simp only [hsel, if_false]
      exact hs u hu

/-- C1 witness. -/
theorem toggle_bulkComplete_preserve_inv_witness :
    (∀ t ∈ toggleTaskStatus 9 1 [exPending, exCompleted7], completedAtInv t) ∧
    (∀ t ∈ (bulkComplete 9 ⟨[exPending], {1}⟩).tasks, completedAtInv t) :=
  toggle_bulkComplete_preserve_inv 9 1 [exPending, exCompleted7]
    ⟨[exPending], {1}⟩ (by decide) (by decide)

/-- C2 counterexample: with a non-empty query, a task matching the search but
failing the status filter is excluded, so search does not decide inclusion
alone. -/
theorem search_does_not_replace_status_filter :
    ("milk" : String) ≠ "" ∧
    matchesQuery "milk" exSearchHit = true ∧
    taskFilterPred .Pending "milk" exSearchHit = false := by decide

/-- C2 amended: with a non-empty query, inclusion is the conjunction of the
status filter and the search match. -/
theorem filter_and_search_conjoin (f : FilterType) (q : String) (t : Task)
    (hq : q ≠ "") :
    taskFilterPred f q t = (statusPass f t && matchesQuery q t) := by
  unfold taskFilterPred statusPass
  by_cases h1 : f = .Pending ∧ t.status ≠ .Pending
  · simp [h1]
  · by_cases h2 : f = .Completed ∧ t.status ≠ .Completed
    · simp [h1, h2]
    · simp [h1, h2, hq]

/-- C2 witness. -/
theorem filter_and_search_conjoin_witness :
    taskFilterPred .All "milk" exSearchHit =
      (statusPass .All exSearchHit && matchesQuery "milk" exSearchHit) :=
  filter_and_search_conjoin .All "milk" exSearchHit (by decide)

end TodoApp

namespace TodoApp

/-- Helper: inserting at `n ≤ length` splits the list at `n`. -/
theorem insertIdx_eq_take_append {α : Type} (a : α) :
    ∀ (n : Nat) (l : List α), n ≤ l.length →
      l.insertIdx n a = l.take n ++ a :: l.drop n
  | 0, l, _ => by simp
  | n + 1, [], h => by simp at h
  | n + 1, c :: cs, h => by
    rw [List.insertIdx_succ_cons, insertIdx_eq_take_append a n cs (by simpa using h)]
    simp

/-- C7: sorting by due date is a permutation in which dateless tasks all come
after dated ones and dated tasks are in ascending date order. -/
theorem sortByDueDate_spec (l : List Task) :
    List.Perm (sortByDueDate l) l ∧
    (sortByDueDate l).Pairwise (fun a b =>
      (b.dueDate.isSome → a.dueDate.isSome) ∧
      ∀ x y, a.dueDate = some x → b.dueDate = some y → x ≤ y) := by
  refine ⟨List.perm_insertionSort dueDateLe l, ?_⟩
  have h := List.sorted_insertionSort dueDateLe l
  refine h.imp ?_
  intro a b hab
  unfold dueDateLe dueDateCmp at hab
  constructor
  · intro hb
    rcases ha : a.dueDate with _ | x
    · rcases hbv : b.dueDate with _ | y
      · rw [hbv] at hb; simp at hb
      · rw [ha, hbv] at hab; simp at hab
    · simp
  · intro x y hx hy
    rw [hx, hy] at hab
    simp at hab
    omega

/-- C3 counterexample: dragging a task that sat before the target does not
land it immediately before the target; it lands immediately after. -/
theorem reorder_not_insert_before :
    reorder 1 3 [dA, dB, dC] = [dB, dC, dA] ∧
    reorderSpecWording 1 3 [dA, dB, dC] = [dB, dA, dC] ∧
    ([dB, dC, dA] : List Task) ≠ [dB, dA, dC] := by decide

/-- C3 amended: with both ids present (at positions `i` for the dragged and
`j` for the target), the dragged task always lands at the original target
index `j`: immediately before the target when it started after it
(`j < i`), immediately after the target when it started before it (`i < j`);
equal ids leave the list unchanged. -/
theorem reorder_spec :
    (∀ x tasks, reorder x x tasks = tasks) ∧
    (∀ (tasks : List Task) (i j : Nat) (d t : Task),
      tasks[i]? = some d → tasks[j]? = some t → d.id ≠ t.id →
      (tasks.findIdx fun x => x.id == d.id) = i →
      (tasks.findIdx fun x => x.id == t.id) = j →
      (reorder d.id t.id tasks).length = tasks.length ∧
      (reorder d.id t.id tasks)[j]? = some d ∧
      (if i < j then (reorder d.id t.id tasks)[j - 1]? = some t
       else (reorder d.id t.id tasks)[j + 1]? = some t)) := by
  constructor
  · intro x tasks; simp [reorder]
  · intro tasks i j d t hd ht hne hfd hft
    have hi : i < tasks.length := (List.getElem?_eq_some.mp hd).1
    have hj : j < tasks.length := (List.getElem?_eq_some.mp ht).1
    have hij : i ≠ j := by
      rintro rfl
      rw [hd] at ht
      cases ht
      exact hne rfl
    have hre : reorder d.id t.id tasks = (tasks.eraseIdx i).insertIdx j d := by
      unfold reorder
      rw [if_neg hne, hfd, hft]
      simp only [hd]
    have hlen1 : (tasks.take i).length = i := by
      simp [List.length_take]
      omega
    have hlen2 : (tasks.drop (i + 1)).length = tasks.length - i - 1 := by
      simp [List.length_drop]
      omega
    have hlenE : (tasks.eraseIdx i).length = tasks.length - 1 := by
      rw [List.eraseIdx_eq_take_drop_succ, List.length_append, hlen1, hlen2]
      omega
    have hjle : j ≤ (tasks.eraseIdx i).length := by omega
    have hsplit : (tasks.eraseIdx i).insertIdx j d =
        (tasks.eraseIdx i).take j ++ d :: (tasks.eraseIdx i).drop j :=
      insertIdx_eq_take_append d j _ hjle
    have hlenT : ((tasks.eraseIdx i).take j).length = j := by
      simp [List.length_take]
      omega
    refine ⟨?_, ?_, ?_⟩
    · rw [hre, hsplit]
      simp [List.length_append, hlenT, List.length_drop, hlenE]
      omega
    · rw [hre, hsplit, List.getElem?_append_right (le_of_eq hlenT), hlenT]
      simp
    · by_cases hlt : i < j
      · rw [if_pos hlt, hre, hsplit,
          List.getElem?_append_left (by omega : j - 1 < ((tasks.eraseIdx i).take j).length),
          List.getElem?_take_of_lt (by omega : j - 1 < j),
          List.eraseIdx_eq_take_drop_succ,
          List.getElem?_append_right (by omega : (tasks.take i).length ≤ j - 1),
          hlen1, List.getElem?_drop]
        have : i + 1 + (j - 1 - i) = j := by omega
        rw [this]
        exact ht
      · rw [if_neg hlt, hre, hsplit,
          List.getElem?_append_right (by omega : ((tasks.eraseIdx i).take j).length ≤ j + 1),
          hlenT]
        have h1 : j + 1 - j = 1 := by omega
        rw [h1]
        simp only [List.getElem?_cons_succ]
        rw [List.getElem?_drop, List.eraseIdx_eq_take_drop_succ,
          List.getElem?_append_left (by rw [hlen1]; omega : j + 0 < (tasks.take i).length),
          List.getElem?_take_of_lt (by omega : j + 0 < i)]
        simpa using ht

/-- C3 witness. -/
theorem reorder_spec_witness :
    (reorder 3 1 [dA, dB, dC]).length = 3 ∧
    (reorder 3 1 [dA, dB, dC])[0]? = some dC ∧
    (reorder 3 1 [dA, dB, dC])[1]? = some dA := by
  have h := reorder_spec.2 [dA, dB, dC] 2 0 dC dA (by decide) (by decide)
    (by decide) (by decide) (by decide)
  refine ⟨h.1, h.2.1, ?_⟩
  have h2 := h.2.2
  rw [if_neg (by omega)] at h2
  exact h2

end TodoApp

namespace ChatRoute

/-- C8 counterexample: with an eleven-entry history whose newest entry repeats
the current user message, the forwarded history is not the most recent ten
entries of the incoming history. -/
theorem forwarded_history_not_slice_of_incoming :
    buildHistory "hi" hist11 ≠ (hist11.drop (hist11.length - 10)).map toGemini := by
  decide

/-- C8 amended: the history is first purged of entries repeating the current
user message, then truncated to its most recent ten entries; the system prompt
is prepended exactly when the resulting history is empty. -/
theorem chat_history_truncation (message : String) (h : List ChatMsg) :
    (buildHistory message h).length = min (filterHistory message h).length 10 ∧
    buildHistory message h <:+ (filterHistory message h).map toGemini ∧
    (buildHistory message h = [] →
      messageToSend message h = SYSTEM_PROMPT ++ "\n\nUser: " ++ message) ∧
    (buildHistory message h ≠ [] → messageToSend message h = message) := by
  refine ⟨?_, ?_, ?_, ?_⟩
  · unfold buildHistory
    simp [List.length_map, List.length_drop]
    omega
  · exact (List.drop_suffix _ _).map toGemini
  · intro he
    unfold messageToSend
    rw [if_pos (by rw [he]; rfl)]
  · intro hne
    unfold messageToSend
    rw [if_neg (by simpa [List.length_eq_zero] using hne)]

/-- C9 counterexample: a model can succeed with an empty reply, in which case
the route does not answer with that reply but throws the stored error. -/
theorem empty_reply_success_not_returned :
    tryModels callEmptyReply modelNames none = .success "" none ∧
    finishLoop (tryModels callEmptyReply modelNames none) =
      .error "No available models found" :=
  ⟨rfl, rfl⟩

/-- C9 amended: the loop walks the fixed candidate list in order, advancing
past a model exactly on a not-found-class error, aborting on any other error
without trying further models, and the first success is returned as the reply
whenever its text is non-empty. -/
theorem chat_model_fallback :
    modelNames = ["gemini-1.5-flash", "gemini-pro", "gemini-1.0-pro", "gemini-1.5-pro"] ∧
    (∀ call m rest lastErr msg, call m = .err msg → isNotFoundErr msg = true →
      tryModels call (m :: rest) lastErr = tryModels call rest (some msg)) ∧
    (∀ call m rest lastErr msg, call m = .err msg → isNotFoundErr msg = false →
      tryModels call (m :: rest) lastErr = .fatal msg) ∧
    (∀ call m rest lastErr t, call m = .ok t →
      tryModels call (m :: rest) lastErr = .success t lastErr ∧
      (t ≠ "" → finishLoop (.success t lastErr) = .ok t)) := by
  refine ⟨rfl, ?_, ?_, ?_⟩
  · intro call m rest lastErr msg hc hnf
    simp [tryModels, hc, hnf]
  · intro call m rest lastErr msg hc hnf
    simp [tryModels, hc, hnf]
  · intro call m rest lastErr t hc
    refine ⟨by simp [tryModels, hc], fun hne => ?_⟩
    simp [finishLoop, hne]

/-- C9 witness. -/
theorem chat_model_fallback_witness :
    tryModels callAllFatal ("gemini-pro" :: []) none = .fatal "quota exceeded" :=
  chat_model_fallback.2.2.1 callAllFatal "gemini-pro" [] none "quota exceeded"
    rfl (by decide)

end ChatRoute

namespace TodoApp

/-- C4 witness. -/
theorem importTasks_replaces_iff_array_witness :
    importTasks (.arr [dA]) [dB] = ([dA], .successAlert 1) :=
  importTasks_replaces_iff_array.1 [dA] [dB]

/-- C6 witness. -/
theorem bulkComplete_spec_witness :
    (bulkComplete 9 ⟨[exPending], {1}⟩).selectedTasks = ∅ :=
  (bulkComplete_spec 9 ⟨[exPending], {1}⟩).1

/-- C7 witness. -/
theorem sortByDueDate_spec_witness :
    List.Perm (sortByDueDate [dA, dB]) [dA, dB] :=
  (sortByDueDate_spec [dA, dB]).1

end TodoApp

namespace ChatRoute

/-- C8 witness. -/
theorem chat_history_truncation_witness :
    (buildHistory "hi" hist11).length = min (filterHistory "hi" hist11).length 10 :=
  (chat_history_truncation "hi" hist11).1

end ChatRoute
